import Mathlib

/-!
Shallow embedding of the 3fs-storage repository's replication and
storage core: the CRAQ chain (`internal/craq`), the local block store
(`internal/storage`) and the block coordinator service
(`internal/block`).  Go strings are modelled as lists of characters and
byte slices as lists of naturals; in-memory maps and the on-disk file
tree are functions from keys to `Option` values.  The background
goroutine spawned by `Chain.Write` to mark a fresh version clean is
modelled as the separate explicit transition `craq.Chain.markClean`,
and local disk write failures are injected through an explicit set of
failing paths.
-/

/-- Go strings (block ids, addresses, file paths). -/
abbrev Str : Type := List Char

/-- Go byte slices. -/
abbrev Bytes : Type := List Nat

/-- Finite maps (Go maps and the file tree) as functions; `setKey m k v`
updates the binding of `k`. -/
def setKey {V : Type} (m : Str → Option V) (k : Str) (v : Option V) :
    Str → Option V :=
  fun q => if q = k then v else m q

/-- Error values returned by the Go code, with messages abstracted to
tags. -/
inductive GoErr : Type where
  | invalidChainLength
  | invalidReplicaFactor
  | chainFull
  | emptyChain
  | noHead
  | notFound (id : Str)
  | noVersions (id : Str)
  | ioFailure
  deriving DecidableEq

deriving instance DecidableEq for Except

namespace storage

/-- Models `CalculateChecksum` (`sha256.Sum256`): the digest's value
never matters for the claims, so the hash is abstracted to an injective
function on the raw bytes. -/
def CalculateChecksum (data : Bytes) : Bytes := data

/-- Mirrors `storage.BlockMetadata`; JSON marshalling is modelled as the
identity on this structured value (`json.Marshal` is injective and
`json.Unmarshal` is its inverse on this struct). -/
structure BlockMetadata : Type where
  checksum : Bytes
  size : Nat
  version : Nat
  createdAt : Int
  lastModified : Int
  deriving DecidableEq

/-- Mirrors `storage.NewBlockMetadata`. -/
def NewBlockMetadata (data : Bytes) (version : Nat) (createdAt : Int) :
    BlockMetadata :=
  { checksum := CalculateChecksum data
    size := data.length
    version := version
    createdAt := createdAt
    lastModified := createdAt }

/-- Contents of one file: a raw data file or a marshalled `.meta`
sidecar. -/
inductive FileData : Type where
  | raw (b : Bytes)
  | meta (m : BlockMetadata)
  deriving DecidableEq

/-- Raw bytes of a file (a sidecar read as a data file yields garbage,
which never happens through the modelled operations). -/
def FileData.asBytes : FileData → Bytes
  | .raw b => b
  | .meta _ => []

/-- Mirrors `storage.LocalStorage`: the on-disk tree and the cache are
maps keyed by path and by block id respectively. -/
structure LocalStorage : Type where
  dataPath : Str
  maxSizeGB : Nat
  fs : Str → Option FileData
  cache : Str → Option Bytes

/-- Mirrors `getBlockPath` (`filepath.Join` over clean nonempty relative
components is slash concatenation): an id shorter than two characters is
zero-padded, then the two-character shard prefix is taken, and the
padded id is also the file name. -/
def getBlockPath (dataPath blockID : Str) : Str :=
  let bid := if blockID.length < 2 then '0' :: '0' :: blockID else blockID
  dataPath ++ '/' :: bid.take 2 ++ '/' :: bid

/-- Go slicing `s[:2]` panics when the string is shorter than two bytes;
the panic branch is made explicit with an `Option`. -/
def sliceTwo (s : Str) : Option Str :=
  if 2 ≤ s.length then some (s.take 2) else none

/-- The in-bounds-explicit form of `getBlockPath`: `none` means the
shard-prefix slice would have panicked. -/
def getBlockPathChecked (dataPath blockID : Str) : Option Str :=
  let bid := if blockID.length < 2 then '0' :: '0' :: blockID else blockID
  match sliceTwo bid with
  | none => none
  | some shard => some (dataPath ++ '/' :: shard ++ '/' :: bid)

/-- Mirrors `getMetadataPath`. -/
def getMetadataPath (dataPath blockID : Str) : Str :=
  getBlockPath dataPath blockID ++ ['.', 'm', 'e', 't', 'a']

/-- Mirrors `LocalStorage.WriteBlock`: write the data file, then (when
metadata is non-nil) the `.meta` sidecar; when the sidecar write fails
the data file is removed (`os.Remove`) and the error is returned; on
success the cache entry is replaced.  `failPaths` lists the paths whose
`ioutil.WriteFile` fails. -/
def LocalStorage.WriteBlock (s : LocalStorage) (failPaths : List Str)
    (blockID : Str) (data : Bytes) (metadata : Option BlockMetadata) :
    Except GoErr Unit × LocalStorage :=
  let blockPath := getBlockPath s.dataPath blockID
  if blockPath ∈ failPaths then
    (.error .ioFailure, s)
  else
    let s1 : LocalStorage := { s with fs := setKey s.fs blockPath (some (.raw data)) }
    match metadata with
    | some m =>
        let metaPath := getMetadataPath s.dataPath blockID
        if metaPath ∈ failPaths then
          (.error .ioFailure, { s1 with fs := setKey s1.fs blockPath none })
        else
          (.ok (), { s1 with
                      fs := setKey s1.fs metaPath (some (.meta m)),
                      cache := setKey s1.cache blockID (some data) })
    | none =>
        (.ok (), { s1 with cache := setKey s1.cache blockID (some data) })

/-- Mirrors `LocalStorage.ReadBlockMetadata`: tri-state
`(exists, metadata)`; a missing sidecar is not an error, and disk reads
are modelled as infallible. -/
def LocalStorage.ReadBlockMetadata (s : LocalStorage) (blockID : Str) :
    Bool × Option BlockMetadata :=
  match s.fs (getMetadataPath s.dataPath blockID) with
  | none => (false, none)
  | some (.meta m) => (true, some m)
  | some (.raw _) => (true, none)

/-- Mirrors `LocalStorage.ReadBlock`: serve data from the cache when
present (metadata still read from disk, and a missing sidecar is then
reported as not-found), otherwise read both files and populate the
cache. -/
def LocalStorage.ReadBlock (s : LocalStorage) (blockID : Str) :
    Except GoErr (Bytes × Option BlockMetadata) × LocalStorage :=
  match s.cache blockID with
  | some data =>
      match s.ReadBlockMetadata blockID with
      | (false, _) => (.error (.notFound blockID), s)
      | (true, md) => (.ok (data, md), s)
  | none =>
      match s.fs (getBlockPath s.dataPath blockID) with
      | none => (.error (.notFound blockID), s)
      | some fd =>
          let data := fd.asBytes
          let md := (s.ReadBlockMetadata blockID).2
          (.ok (data, md), { s with cache := setKey s.cache blockID (some data) })

/-- Mirrors `LocalStorage.DeleteBlock`: removes both files (a missing
file is not an error) and evicts the cache entry. -/
def LocalStorage.DeleteBlock (s : LocalStorage) (blockID : Str) :
    Except GoErr Unit × LocalStorage :=
  let blockPath := getBlockPath s.dataPath blockID
  let metaPath := getMetadataPath s.dataPath blockID
  (.ok (), { s with
              fs := setKey (setKey s.fs blockPath none) metaPath none,
              cache := setKey s.cache blockID none })

end storage

namespace craq

/-- Mirrors `craq.Node`; the `NextNode`/`PrevNode` pointers are the
list order of `Chain.nodes`. -/
structure Node : Type where
  id : Str
  address : Str
  isHead : Bool
  isTail : Bool
  deriving DecidableEq

/-- Mirrors `craq.BlockVersion`. -/
structure BlockVersion : Type where
  version : Nat
  data : Bytes
  metadata : storage.BlockMetadata
  timestamp : Int
  clean : Bool
  deriving DecidableEq

/-- Mirrors `craq.Block`. -/
structure Block : Type where
  id : Str
  versions : List BlockVersion
  deriving DecidableEq

/-- Mirrors `craq.Chain`; the `head` pointer is the first node of
`nodes` and the `tail` pointer the last, exactly as `AddNode`
maintains them. -/
structure Chain : Type where
  chainLength : Int
  replicaFactor : Int
  nodes : List Node
  blocks : Str → Option Block

/-- Mirrors `craq.NewChain` with its two validation checks. -/
def NewChain (chainLength replicaFactor : Int) : Except GoErr Chain :=
  if chainLength ≤ 0 then .error .invalidChainLength
  else if replicaFactor ≤ 0 ∨ replicaFactor > chainLength then
    .error .invalidReplicaFactor
  else .ok { chainLength := chainLength, replicaFactor := replicaFactor,
             nodes := [], blocks := fun _ => none }

/-- Clears the `IsTail` flag of the current tail (the last node), as
`AddNode` does through the `c.tail` pointer. -/
def clearTail : List Node → List Node
  | [] => []
  | [n] => [{ n with isTail := false }]
  | n :: m :: rest => n :: clearTail (m :: rest)

/-- Mirrors `Chain.AddNode`: fails with chain-full at the configured
length, otherwise appends a new tail node (the first node is both head
and tail). -/
def Chain.AddNode (c : Chain) (id address : Str) : Except GoErr Chain :=
  if (c.nodes.length : Int) ≥ c.chainLength then .error .chainFull
  else
    match c.nodes with
    | [] => .ok { c with nodes :=
        [{ id := id, address := address, isHead := true, isTail := true }] }
    | _ :: _ => .ok { c with nodes := clearTail c.nodes ++
        [{ id := id, address := address, isHead := false, isTail := true }] }

/-- Mirrors `Chain.Initialize`: fails on an empty chain, otherwise a
no-op on the modelled state. -/
def Chain.initChain (c : Chain) : Except GoErr Chain :=
  if c.nodes.isEmpty then .error .emptyChain else .ok c

/-- The get-or-create step of `Chain.Write`: the stored block, or a
fresh empty one. -/
def Chain.lookupOrNew (c : Chain) (blockID : Str) : Block :=
  (c.blocks blockID).getD { id := blockID, versions := [] }

/-- The version-number computation of `Chain.Write`: `1`, or the last
stored version plus one. -/
def nextVersionOf (vs : List BlockVersion) : Nat :=
  match vs.getLast? with
  | none => 1
  | some v => v.version + 1

/-- Mirrors `Chain.Write`: fails when the chain has no head; otherwise
appends a new dirty version numbered `last + 1` (`1` for a fresh
block) and returns success.  The fire-and-forget goroutine that later
marks the version clean is the separate transition
`Chain.markClean`. -/
def Chain.Write (c : Chain) (blockID : Str) (data : Bytes)
    (metadata : storage.BlockMetadata) (now : Int) : Except GoErr Chain :=
  match c.nodes with
  | [] => .error .noHead
  | _ :: _ =>
    let block := c.lookupOrNew blockID
    let nextVersion := nextVersionOf block.versions
    let nv : BlockVersion :=
      { version := nextVersion, data := data, metadata := metadata,
        timestamp := now, clean := false }
    let nb : Block := { block with versions := block.versions ++ [nv] }
    .ok { c with blocks := setKey c.blocks blockID (some nb) }

/-- Body of the goroutine spawned by `Chain.Write`: mark the first
version numbered `target` clean (the loop breaks at the first
match). -/
def markCleanVersions (target : Nat) : List BlockVersion → List BlockVersion
  | [] => []
  | v :: rest =>
      if v.version = target then { v with clean := true } :: rest
      else v :: markCleanVersions target rest

/-- The delayed clean-marking transition for one written version. -/
def Chain.markClean (c : Chain) (blockID : Str) (target : Nat) : Chain :=
  match c.blocks blockID with
  | none => c
  | some b =>
      let nb : Block := { b with versions := markCleanVersions target b.versions }
      { c with blocks := setKey c.blocks blockID (some nb) }

/-- The backwards scan of `Chain.Read` for the latest clean version. -/
def findLatestClean (vs : List BlockVersion) : Option BlockVersion :=
  vs.reverse.find? (fun v => v.clean)

/-- Mirrors `Chain.Read`: not-found on an unknown block or an empty
version list; otherwise the latest clean version, and when no clean
version exists the fallback returns the oldest version. -/
def Chain.Read (c : Chain) (blockID : Str) :
    Except GoErr (Bytes × storage.BlockMetadata) :=
  match c.blocks blockID with
  | none => .error (.notFound blockID)
  | some b =>
    match b.versions with
    | [] => .error (.noVersions blockID)
    | v0 :: _ =>
      match findLatestClean b.versions with
      | some v => .ok (v.data, v.metadata)
      | none => .ok (v0.data, v0.metadata)

/-- Mirrors `Chain.Delete`. -/
def Chain.Delete (c : Chain) (blockID : Str) : Except GoErr Chain :=
  match c.blocks blockID with
  | none => .error (.notFound blockID)
  | some _ => .ok { c with blocks := setKey c.blocks blockID none }

end craq

namespace block

/-- Mirrors `block.Service`. -/
structure Service : Type where
  localStorage : storage.LocalStorage
  craqChain : Option craq.Chain

/-- Mirrors `Service.WriteBlock`: metadata is built with the hard-coded
version `1`, the block is replicated through the chain when one is
configured, and it is always written to local storage as well. -/
def Service.WriteBlock (s : Service) (failPaths : List Str)
    (blockID : Str) (data : Bytes) (now : Int) :
    Except GoErr Unit × Service :=
  let metadata := storage.NewBlockMetadata data 1 now
  match s.craqChain with
  | some chain =>
      match chain.Write blockID data metadata now with
      | .error e => (.error e, s)
      | .ok chain' =>
          let r := s.localStorage.WriteBlock failPaths blockID data (some metadata)
          (r.1, { localStorage := r.2, craqChain := some chain' })
  | none =>
      let r := s.localStorage.WriteBlock failPaths blockID data (some metadata)
      (r.1, { localStorage := r.2, craqChain := none })

/-- Mirrors `Service.ReadBlock`: the chain is consulted first when
configured; on a chain error the call falls back to local storage. -/
def Service.ReadBlock (s : Service) (blockID : Str) :
    Except GoErr Bytes × Service :=
  match s.craqChain with
  | some chain =>
      match chain.Read blockID with
      | .ok dm => (.ok dm.1, s)
      | .error _ =>
          let r := s.localStorage.ReadBlock blockID
          match r.1 with
          | .error e => (.error e, { s with localStorage := r.2 })
          | .ok dm => (.ok dm.1, { s with localStorage := r.2 })
  | none =>
      let r := s.localStorage.ReadBlock blockID
      match r.1 with
      | .error e => (.error e, { s with localStorage := r.2 })
      | .ok dm => (.ok dm.1, { s with localStorage := r.2 })

/-- Mirrors `Service.DeleteBlock`: chain delete first when configured; a
chain-side failure returns immediately, before the local delete. -/
def Service.DeleteBlock (s : Service) (blockID : Str) :
    Except GoErr Unit × Service :=
  match s.craqChain with
  | some chain =>
      match chain.Delete blockID with
      | .error e => (.error e, s)
      | .ok chain' =>
          let r := s.localStorage.DeleteBlock blockID
          (r.1, { localStorage := r.2, craqChain := some chain' })
  | none =>
      let r := s.localStorage.DeleteBlock blockID
      (r.1, { localStorage := r.2, craqChain := none })

end block

namespace craq

/-- The versions of a list are numbered `k, k+1, k+2, …` in order. -/
def numberedFrom (k : Nat) : List BlockVersion → Prop
  | [] => True
  | v :: rest => v.version = k ∧ numberedFrom (k + 1) rest

/-- A block's version numbers are exactly `1, 2, 3, …` with no gaps. -/
def Block.wellNumbered (b : Block) : Prop := numberedFrom 1 b.versions

/-- Every block stored in the chain is well numbered. -/
def Chain.inv (c : Chain) : Prop :=
  ∀ id b, c.blocks id = some b → b.wellNumbered

/-- The version list a block holds before an operation (empty for a
fresh block). -/
def oldVersions (c : Chain) (id : Str) : List BlockVersion :=
  (c.lookupOrNew id).versions

/-- Outcome of `AddNode` reduced to the resulting node count. -/
def nodeCountAfterAdd (c : Chain) (id addr : Str) : Except GoErr Nat :=
  (c.AddNode id addr).map fun c' => c'.nodes.length

/-- The version-ledger discipline asserted by the spec for one chain
state: every chain operation preserves well-numbering, and a successful
`Write` appends exactly one dirty version numbered `last + 1` (`1` for
a fresh block, which is `length + 1` in both cases). -/
def chainVersionDiscipline (c : Chain) : Prop :=
  (∀ id addr c', c.AddNode id addr = .ok c' → c'.inv) ∧
  (∀ c', c.initChain = .ok c' → c'.inv) ∧
  (∀ id data md now c', c.Write id data md now = .ok c' → c'.inv) ∧
  (∀ id c', c.Delete id = .ok c' → c'.inv) ∧
  (∀ id t, (c.markClean id t).inv) ∧
  (∀ id data md now c', c.Write id data md now = .ok c' →
     (c'.blocks id).map Block.versions =
       some (oldVersions c id ++
         [{ version := (oldVersions c id).length + 1, data := data,
            metadata := md, timestamp := now, clean := false }]))

end craq

/-- A concrete one-slot chain holding its single node; reachable through
the constructor API (see `chain1_reachable`). -/
def chain1 : craq.Chain :=
  { chainLength := 1, replicaFactor := 1,
    nodes := [{ id := ['n'], address := ['a'], isHead := true, isTail := true }],
    blocks := fun _ => none }

/-- The same chain built through `NewChain`, `AddNode` and
initialization. -/
def chain1E : Except GoErr craq.Chain := do
  let c ← craq.NewChain 1 1
  let c ← c.AddNode ['n'] ['a']
  c.initChain

/-- A concrete two-slot chain holding one node; reachable through the
constructor API (see `chain2_reachable`). -/
def chain2 : craq.Chain :=
  { chainLength := 2, replicaFactor := 2,
    nodes := [{ id := ['n'], address := ['a'], isHead := true, isTail := true }],
    blocks := fun _ => none }

/-- The same two-slot chain built through the constructor API. -/
def chain2E : Except GoErr craq.Chain := do
  let c ← craq.NewChain 2 2
  let c ← c.AddNode ['n'] ['a']
  c.initChain

/-- Concrete metadata values used in the chain-level scenarios. -/
def m1 : storage.BlockMetadata := storage.NewBlockMetadata [1] 1 10

/-- Second concrete metadata value. -/
def m2 : storage.BlockMetadata := storage.NewBlockMetadata [2] 1 20

/-- Claim C1 scenario: two consecutive `Write`s whose clean-marking
goroutines have not yet run, so both stored versions are dirty. -/
def c1Chain : Except GoErr craq.Chain :=
  (chain1.Write ['b'] [1] m1 10).bind fun c => c.Write ['b'] [2] m2 20

/-- What `Read` answers on the all-dirty block of the C1 scenario. -/
def c1ReadResult : Option (Except GoErr (Bytes × storage.BlockMetadata)) :=
  match c1Chain with
  | .error _ => none
  | .ok c => some (c.Read ['b'])

/-- Claim C2 scenario: the `(version, clean)` pairs stored for the block
at the moment a single successful `Write` returns. -/
def c2Result : Option (List (Nat × Bool)) :=
  match chain1.Write ['b'] [7] m1 5 with
  | .error _ => none
  | .ok c =>
      match c.blocks ['b'] with
      | none => none
      | some b => some (b.versions.map (fun v => (v.version, v.clean)))

/-- An empty local store rooted at path `d`. -/
def ls0 : storage.LocalStorage :=
  { dataPath := ['d'], maxSizeGB := 10, fs := fun _ => none, cache := fun _ => none }

/-- A block service wired to the one-node chain and the empty local
store. -/
def svc0 : block.Service := { localStorage := ls0, craqChain := some chain1 }

/-- Claim C3 scenario: two successful `Service.WriteBlock` calls on the
same id; the result lists each stored chain version paired with the
`version` field of the metadata that call built. -/
def c3Result : Option (List (Nat × Nat)) :=
  let w1 := svc0.WriteBlock [] ['x'] [1] 10
  match w1.1 with
  | .error _ => none
  | .ok _ =>
    let w2 := w1.2.WriteBlock [] ['x'] [2] 20
    match w2.1 with
    | .error _ => none
    | .ok _ =>
      match w2.2.craqChain with
      | none => none
      | some c =>
        match c.blocks ['x'] with
        | none => none
        | some b => some (b.versions.map (fun v => (v.version, v.metadata.version)))

/-- Claim C4 scenario: `WriteBlock [1]`, the propagation goroutine for
version 1 completes, `WriteBlock [2]`, then `ReadBlock` runs before the
goroutine for version 2 marks it clean. -/
def c4Result : Option Bytes :=
  let w1 := svc0.WriteBlock [] ['x'] [1] 10
  match w1.1 with
  | .error _ => none
  | .ok _ =>
    let s1 : block.Service :=
      { w1.2 with craqChain := (w1.2).craqChain.map (fun c => c.markClean ['x'] 1) }
    let w2 := s1.WriteBlock [] ['x'] [2] 20
    match w2.1 with
    | .error _ => none
    | .ok _ =>
      match (w2.2.ReadBlock ['x']).1 with
      | .error _ => none
      | .ok data => some data

/-- The data-file path of the block used in the C5 scenario. -/
def c5Path : Str := storage.getBlockPath ['d'] ['x', 'y']

/-- A local store already holding the data file of block `xy`. -/
def c5Store : storage.LocalStorage :=
  { dataPath := ['d'], maxSizeGB := 10,
    fs := setKey (fun _ => none) c5Path (some (.raw [9])),
    cache := fun _ => none }

/-- A block service whose chain does not know block `xy` while the local
store holds its data file. -/
def svc5 : block.Service := { localStorage := c5Store, craqChain := some chain1 }

/-- Claim C5 scenario: the outcome of `DeleteBlock` and the local data
file's contents afterwards. -/
def c5Result : Except GoErr Unit × Option storage.FileData :=
  ((svc5.DeleteBlock ['x', 'y']).1,
   (svc5.DeleteBlock ['x', 'y']).2.localStorage.fs c5Path)

/-- Concrete metadata value for the C6 witness. -/
def c6Meta : storage.BlockMetadata := storage.NewBlockMetadata [3] 1 0

/-- Claim C8 scenario: attempt `AddNode` on the initialized two-slot
chain and report the outcome together with the resulting node count. -/
def c8Result : Except GoErr Unit × Nat :=
  match chain2.AddNode ['m'] ['b'] with
  | .error e => (.error e, chain2.nodes.length)
  | .ok c' => (.ok (), c'.nodes.length)

/-- The concrete one-slot chain is exactly what the constructor API
produces. -/
theorem chain1_reachable : chain1E = .ok chain1 := rfl

/-- The concrete two-slot chain is exactly what the constructor API
produces. -/
theorem chain2_reachable : chain2E = .ok chain2 := rfl

/-- C1: on a block whose latest local version is dirty and that has no
clean (committed) version at all, `Chain.Read` does not report a
not-ready error: it silently returns the oldest — also dirty — version's
payload and metadata with no error. -/
theorem c1_read_dirty_fallback : c1ReadResult = some (.ok ([1], m1)) := by
  decide

/-- C2: `Chain.Write` returns success while the version it appended is
still dirty — at the moment the call returns, the block's single stored
version is `(1, clean := false)`; it only becomes clean when the
background transition runs later. -/
theorem c2_write_returns_dirty : c2Result = some [(1, false)] := by
  decide

/-- C3: after two successful `Service.WriteBlock` calls on the same id,
the chain holds versions 1 and 2, but the metadata built by the second
call still carries version 1 (the hard-coded constant), not 2. -/
theorem c3_metadata_version_hardcoded : c3Result = some [(1, 1), (2, 1)] := by
  decide

/-- C4: a successful `Service.WriteBlock` of payload `[2]` followed by
`Service.ReadBlock` (before the background goroutine marks version 2
clean) returns the earlier payload `[1]`, not `[2]`. -/
theorem c4_round_trip_stale : c4Result = some [1] := by
  decide

/-- C5 counterexample: with a configured chain in which the block does
not exist, `Service.DeleteBlock` surfaces the chain-side error and the
local data file is still present afterwards — the local deletion did
not execute. -/
theorem c5_counterexample :
    c5Result = (.error (.notFound ['x', 'y']), some (.raw [9])) := by
  decide

/-- C8 counterexample: on the initialized two-slot chain holding one
node, a subsequent `AddNode` succeeds and grows the topology to two
nodes instead of failing. -/
theorem c8_counterexample : c8Result = (.ok (), 2) := by
  decide

/-- C5 (amended): with a configured chain, when the chain-side delete
fails the error is surfaced and the call returns immediately — the
local deletion does not execute and the whole service state is
unchanged. -/
theorem c5_amended_delete (s : block.Service) (ch : craq.Chain) (id : Str)
    (hch : s.craqChain = some ch) (hmiss : ch.blocks id = none) :
    s.DeleteBlock id = (.error (.notFound id), s) := by
  simp [block.Service.DeleteBlock, craq.Chain.Delete, hch, hmiss]

/-- Witness for the amended C5 statement at the concrete scenario
state. -/
theorem c5_amended_witness :
    svc5.craqChain = some chain1 ∧ chain1.blocks ['x', 'y'] = none ∧
    svc5.DeleteBlock ['x', 'y'] = (.error (.notFound ['x', 'y']), svc5) :=
  ⟨rfl, rfl, c5_amended_delete svc5 chain1 ['x', 'y'] rfl rfl⟩

/-- C6: when the data-file write succeeds and the metadata sidecar write
fails, `LocalStorage.WriteBlock` removes the data file before returning
the IO error, so no orphaned data file is left behind. -/
theorem c6_sidecar_failure_cleanup (s : storage.LocalStorage)
    (failPaths : List Str) (blockID : Str) (data : Bytes)
    (m : storage.BlockMetadata)
    (hdata : storage.getBlockPath s.dataPath blockID ∉ failPaths)
    (hmeta : storage.getMetadataPath s.dataPath blockID ∈ failPaths) :
    (s.WriteBlock failPaths blockID data (some m)).1 = .error .ioFailure ∧
    (s.WriteBlock failPaths blockID data (some m)).2.fs
        (storage.getBlockPath s.dataPath blockID) = none := by
  unfold storage.LocalStorage.WriteBlock
  simp [hdata, hmeta, setKey]

/-- Witness for C6 at a concrete store, id and failing sidecar path. -/
theorem c6_witness :
    (ls0.WriteBlock [storage.getMetadataPath ['d'] ['a']] ['a'] [3]
        (some c6Meta)).1 = .error .ioFailure ∧
    (ls0.WriteBlock [storage.getMetadataPath ['d'] ['a']] ['a'] [3]
        (some c6Meta)).2.fs (storage.getBlockPath ['d'] ['a']) = none :=
  c6_sidecar_failure_cleanup ls0 [storage.getMetadataPath ['d'] ['a']] ['a']
    [3] c6Meta (by decide) (by decide)

/-- The tail-clearing helper of `AddNode` keeps the node count. -/
theorem clearTail_length (l : List craq.Node) :
    (craq.clearTail l).length = l.length := by
  match l with
  | [] => rfl
  | [n] => rfl
  | n :: m :: rest =>
      simp [craq.clearTail, clearTail_length (m :: rest)]

/-- C8 (amended): a successful `Initialize` leaves the chain unchanged
and does not freeze the topology: afterwards `AddNode` still fails with
chain-full exactly when the node count has reached the configured
length, and otherwise succeeds and appends one node. -/
theorem c8_amended_addnode (c c' : craq.Chain) (h : c.initChain = .ok c')
    (id addr : Str) :
    c' = c ∧
    ((c.nodes.length : Int) ≥ c.chainLength →
        craq.nodeCountAfterAdd c id addr = .error .chainFull) ∧
    ((c.nodes.length : Int) < c.chainLength →
        craq.nodeCountAfterAdd c id addr = .ok (c.nodes.length + 1)) := by
  refine ⟨?_, ?_, ?_⟩
  · unfold craq.Chain.initChain at h
    by_cases he : c.nodes.isEmpty <;> simp [he] at h
    exact h.symm
  · intro hge
    unfold craq.nodeCountAfterAdd craq.Chain.AddNode
    simp [hge, Except.map]
  · intro hlt
    unfold craq.nodeCountAfterAdd craq.Chain.AddNode
    have hng : ¬ ((c.nodes.length : Int) ≥ c.chainLength) := by omega
    simp only [hng, if_false]
    cases hn : c.nodes with
    | nil => simp [Except.map]
    | cons a rest => simp [Except.map, clearTail_length, hn]

/-- Witness for the amended C8 statement: the initialized two-slot chain
is below capacity, and `AddNode` grows it to two nodes. -/
theorem c8_amended_witness :
    chain2.initChain = .ok chain2 ∧
    (chain2.nodes.length : Int) < chain2.chainLength ∧
    craq.nodeCountAfterAdd chain2 ['m'] ['b'] = .ok 2 :=
  ⟨rfl, by decide,
    (c8_amended_addnode chain2 chain2 rfl ['m'] ['b']).2.2 (by decide)⟩

/-- The padded id is always at least two characters long. -/
theorem padded_length_ge_two (blockID : Str) :
    2 ≤ (if blockID.length < 2 then '0' :: '0' :: blockID else blockID).length := by
  by_cases h : blockID.length < 2
  · simp only [h, if_true, List.length_cons]
    omega
  · simp only [h, if_false]
    omega

/-- C9: zero-padding keeps the two-character shard slice in bounds for
every id, short ids included — the panic-explicit path computation
always succeeds and agrees with the total one — and the id consisting of
the single character `a` resolves to the same shard path as `00a`. -/
theorem c9_shard_padding_safe (dataPath blockID : Str) :
    storage.getBlockPathChecked dataPath blockID =
      some (storage.getBlockPath dataPath blockID) ∧
    storage.getBlockPath dataPath ['a'] =
      storage.getBlockPath dataPath ['0', '0', 'a'] := by
  constructor
  · unfold storage.getBlockPathChecked storage.getBlockPath storage.sliceTwo
    simp [padded_length_ge_two blockID]
  · rfl

/-- The metadata sidecar path always differs from the data-file path. -/
theorem metaPath_ne_blockPath (dataPath blockID : Str) :
    storage.getMetadataPath dataPath blockID ≠
      storage.getBlockPath dataPath blockID := by
  intro he
  have hlen : (storage.getBlockPath dataPath blockID).length + 5 =
      (storage.getBlockPath dataPath blockID).length := by
    simpa [storage.getMetadataPath] using congrArg List.length he
  omega

/-- C10: for an id shorter than two characters the stored paths collide
with those of the explicitly padded id: data and metadata paths
coincide, and a local write to the short id lands its bytes at exactly
the long id's data path. -/
theorem c10_short_id_collision (s : storage.LocalStorage) (blockID : Str)
    (data : Bytes) (m : storage.BlockMetadata) (h : blockID.length < 2) :
    storage.getBlockPath s.dataPath blockID =
      storage.getBlockPath s.dataPath ('0' :: '0' :: blockID) ∧
    storage.getMetadataPath s.dataPath blockID =
      storage.getMetadataPath s.dataPath ('0' :: '0' :: blockID) ∧
    (s.WriteBlock [] blockID data (some m)).2.fs
        (storage.getBlockPath s.dataPath ('0' :: '0' :: blockID)) =
      some (.raw data) := by
  have hp : storage.getBlockPath s.dataPath blockID =
      storage.getBlockPath s.dataPath ('0' :: '0' :: blockID) := by
    unfold storage.getBlockPath
    have h2 : ¬ (List.length blockID + 1 + 1 < 2) := by omega
    simp [h, h2]
  refine ⟨hp, ?_, ?_⟩
  · unfold storage.getMetadataPath
    rw [hp]
  · rw [← hp]
    unfold storage.LocalStorage.WriteBlock
    simp [setKey, Ne.symm (metaPath_ne_blockPath s.dataPath blockID)]

/-- Witness for C10 at the concrete short id `a`. -/
theorem c10_witness :
    (['a'] : Str).length < 2 ∧
    (storage.getBlockPath ls0.dataPath ['a'] =
        storage.getBlockPath ls0.dataPath ['0', '0', 'a'] ∧
     storage.getMetadataPath ls0.dataPath ['a'] =
        storage.getMetadataPath ls0.dataPath ['0', '0', 'a'] ∧
     (ls0.WriteBlock [] ['a'] [5] (some c6Meta)).2.fs
        (storage.getBlockPath ls0.dataPath ['0', '0', 'a']) =
       some (.raw [5])) :=
  ⟨by decide, c10_short_id_collision ls0 ['a'] [5] c6Meta (by decide)⟩

/-- Versions numbered consecutively from `k` have last number
`k + length - 1`. -/
theorem numberedFrom_getLast :
    ∀ (k : Nat) (vs : List craq.BlockVersion) (v : craq.BlockVersion),
      craq.numberedFrom k vs → vs.getLast? = some v →
      v.version + 1 = k + vs.length
  | _, [], _, _, hl => by simp at hl
  | k, [x], v, h, hl => by
      simp only [List.getLast?_singleton, Option.some.injEq] at hl
      subst hl
      simp only [craq.numberedFrom] at h
      simp [h.1]
  | k, x :: y :: rest, v, h, hl => by
      rw [List.getLast?_cons_cons] at hl
      simp only [craq.numberedFrom] at h
      have ih := numberedFrom_getLast (k + 1) (y :: rest) v h.2 hl
      simp only [List.length_cons] at ih ⊢
      omega

/-- Appending one version numbered `k + length` preserves consecutive
numbering from `k`. -/
theorem numberedFrom_append_one (k : Nat) (vs : List craq.BlockVersion)
    (nv : craq.BlockVersion) (h : craq.numberedFrom k vs)
    (hv : nv.version = k + vs.length) :
    craq.numberedFrom k (vs ++ [nv]) := by
  induction vs generalizing k with
  | nil =>
      simp only [List.nil_append, craq.numberedFrom]
      exact ⟨by simpa using hv, trivial⟩
  | cons x rest ih =>
      simp only [craq.numberedFrom] at h
      simp only [List.cons_append, craq.numberedFrom]
      refine ⟨h.1, ih (k + 1) h.2 ?_⟩
      simp only [List.length_cons] at hv
      omega

/-- The clean-marking loop never changes version numbers, so it
preserves consecutive numbering. -/
theorem numberedFrom_markClean (k t : Nat) (vs : List craq.BlockVersion)
    (h : craq.numberedFrom k vs) :
    craq.numberedFrom k (craq.markCleanVersions t vs) := by
  induction vs generalizing k with
  | nil => simpa using h
  | cons x rest ih =>
      simp only [craq.numberedFrom] at h
      unfold craq.markCleanVersions
      by_cases hx : x.version = t
      · rw [if_pos hx]
        simp only [craq.numberedFrom]
        exact ⟨h.1, h.2⟩
      · rw [if_neg hx]
        simp only [craq.numberedFrom]
        exact ⟨h.1, ih (k + 1) h.2⟩

/-- On a well-numbered version list the next assigned version number is
`length + 1`. -/
theorem nextVersionOf_eq (vs : List craq.BlockVersion)
    (h : craq.numberedFrom 1 vs) :
    craq.nextVersionOf vs = vs.length + 1 := by
  unfold craq.nextVersionOf
  cases hl : vs.getLast? with
  | none =>
      have hnil : vs = [] := List.getLast?_eq_none_iff.mp hl
      subst hnil
      rfl
  | some v =>
      have h2 := numberedFrom_getLast 1 vs v h hl
      show v.version + 1 = vs.length + 1
      omega

/-- In a chain satisfying the invariant, the pre-state version list of
any id is numbered `1, 2, 3, …`. -/
theorem oldVersions_numbered (c : craq.Chain) (hc : c.inv) (id : Str) :
    craq.numberedFrom 1 (craq.oldVersions c id) := by
  unfold craq.oldVersions craq.Chain.lookupOrNew
  cases hcb : c.blocks id with
  | none => simp [craq.numberedFrom]
  | some b => simpa using hc id b hcb

/-- C7: version lists are append-only and numbered `1, 2, 3, …` with no
gaps — every chain operation preserves the well-numbering invariant,
and a successful `Write` appends exactly one dirty version numbered
`last + 1` (equivalently `length + 1`; `1` for a fresh block). -/
theorem c7_version_discipline (c : craq.Chain) (hc : c.inv) :
    craq.chainVersionDiscipline c := by
  refine ⟨?_, ?_, ?_, ?_, ?_, ?_⟩
  · intro id addr c' h
    unfold craq.Chain.AddNode at h
    split at h
    · exact (Except.noConfusion h)
    · split at h
      · injection h with h
        subst h
        exact hc
      · injection h with h
        subst h
        exact hc
  · intro c' h
    unfold craq.Chain.initChain at h
    split at h
    · exact (Except.noConfusion h)
    · injection h with h
      subst h
      exact hc
  · intro id data md now c' h
    unfold craq.Chain.Write at h
    split at h
    · exact (Except.noConfusion h)
    · injection h with h
      subst h
      intro i b hb
      simp only [setKey] at hb
      by_cases hid : i = id
      · rw [if_pos hid] at hb
        injection hb with hb
        subst hb
        show craq.numberedFrom 1 _
        refine numberedFrom_append_one 1 _ _ (oldVersions_numbered c hc id) ?_
        show craq.nextVersionOf (c.lookupOrNew id).versions =
          1 + (c.lookupOrNew id).versions.length
        rw [nextVersionOf_eq ((c.lookupOrNew id).versions)
          (oldVersions_numbered c hc id)]
        omega
      · rw [if_neg hid] at hb
        exact hc i b hb
  · intro id c' h
    unfold craq.Chain.Delete at h
    split at h
    · exact (Except.noConfusion h)
    · injection h with h
      subst h
      intro i b hb
      simp only [setKey] at hb
      by_cases hid : i = id
      · rw [if_pos hid] at hb
        exact (Option.noConfusion hb)
      · rw [if_neg hid] at hb
        exact hc i b hb
  · intro id t
    unfold craq.Chain.markClean
    split
    · exact hc
    · intro i b hb
      simp only [setKey] at hb
      by_cases hid : i = id
      · rw [if_pos hid] at hb
        injection hb with hb
        subst hb
        show craq.numberedFrom 1 _
        refine numberedFrom_markClean 1 t _ ?_
        exact hc id _ (by assumption)
      · rw [if_neg hid] at hb
        exact hc i b hb
  · intro id data md now c' h
    unfold craq.Chain.Write at h
    split at h
    · exact (Except.noConfusion h)
    · injection h with h
      subst h
      simp only [setKey, eq_self_iff_true, if_true, Option.map_some']
      unfold craq.oldVersions
      rw [nextVersionOf_eq ((c.lookupOrNew id).versions)
        (oldVersions_numbered c hc id)]

/-- Witness for C7: the concrete one-node chain with an empty ledger
satisfies the invariant, and hence the full version discipline. -/
theorem c7_witness : chain1.inv ∧ craq.chainVersionDiscipline chain1 :=
  ⟨fun _ _ h => Option.noConfusion h,
   c7_version_discipline chain1 (fun _ _ h => Option.noConfusion h)⟩
